import Mathlib

/-!
Verification of the KACLS front-door service (`src/app.js`): a shallow
embedding of the request-envelope locator (`pickBase64`), the base64
helpers (`looksLikeB64`, `b64urlToBuf`), the CORS gate, and the
`/wrap` / `/unwrap` route handlers, together with theorems settling the
spec's claims about them.
-/

namespace Kacls

/-- A JSON value, as produced by `JSON.parse` on a request body.
Numbers are modelled as integers: no claim inspects a numeric value
beyond its JS truthiness and `typeof`. Object fields are an ordered
association list (JS objects preserve insertion order; parsed JSON
objects have pairwise-distinct keys). -/
inductive Json where
  | null : Json
  | bool (b : Bool) : Json
  | num (n : Int) : Json
  | str (s : String) : Json
  | arr (elems : List Json) : Json
  | obj (fields : List (String × Json)) : Json
  deriving Repr

/-- JS truthiness of a JSON value (`!body` in `app.js` is its negation):
`null`, `false`, `0` and `""` are falsy; objects and arrays are truthy. -/
def jsTruthy : Json → Bool
  | Json.null => false
  | Json.bool b => b
  | Json.num n => n != 0
  | Json.str s => s ≠ ""
  | Json.arr _ => true
  | Json.obj _ => true

/-- `typeof v === "object"` for a JSON value: true exactly for `null`,
arrays and objects. -/
def jsTypeofObject : Json → Bool
  | Json.null => true
  | Json.arr _ => true
  | Json.obj _ => true
  | _ => false

/-- First-match association-list lookup; on a parsed-JSON object (distinct
keys) this is exactly the JS property read `body[k]`. -/
def jsonLookup : List (String × Json) → String → Option Json
  | [], _ => none
  | (k', v) :: t, k => if k' = k then some v else jsonLookup t k

/-- Decimal digit value of a character, or `none`. -/
def digitVal (c : Char) : Option Nat :=
  let n := c.toNat
  if 48 ≤ n ∧ n ≤ 57 then some (n - 48) else none

/-- Accumulate the remaining digits of a decimal numeral. -/
def parseDigits : List Char → Nat → Option Nat
  | [], acc => some acc
  | c :: cs, acc =>
    match digitVal c with
    | some d => parseDigits cs (acc * 10 + d)
    | none => none

/-- The canonical-numeric-string test used by JS array indexing:
`arr[k]` for a string key `k` reads element `i` iff `k` is the canonical
decimal numeral of `i` (digits only, no leading zero except `"0"`
itself). -/
def canonIndex (k : String) : Option Nat :=
  match k.data with
  | [] => none
  | c :: cs =>
    match digitVal c with
    | none => none
    | some d =>
      if d = 0 then (if cs = [] then some 0 else none)
      else parseDigits cs d

/-- The JS property read `body[k]` for a string key on a JSON value:
own properties of objects, canonical-index elements of arrays, nothing on
primitives. (Prototype-inherited properties such as `"length"` on arrays
are never strings nor recursable objects in `app.js`'s uses, so omitting
them is observation-equivalent for `pickBase64`.) -/
def jsGet (j : Json) (k : String) : Option Json :=
  match j with
  | Json.obj l => jsonLookup l k
  | Json.arr xs =>
    match canonIndex k with
    | some i => xs[i]?
    | none => none
  | _ => none

/-! ### The `looksLikeB64` predicate (src/app.js line 51-53)

`looksLikeB64(s)` is `typeof s === "string" && s.length >= 8 &&
/^[A-Za-z0-9+/_-]+=*$/.test(s)`.  The regex is embedded as a direct
matcher: one or more characters of the class followed by zero or more
`=`. -/

/-- Membership in the regex character class `[A-Za-z0-9+/_-]`. -/
def isClassChar (c : Char) : Bool :=
  let n := c.toNat
  (65 ≤ n && n ≤ 90) || (97 ≤ n && n ≤ 122) || (48 ≤ n && n ≤ 57) ||
  n = 43 || n = 47 || n = 95 || n = 45

/-- Matches the regex fragment `=*`. -/
def eqStar : List Char → Bool
  | [] => true
  | c :: cs => c = '=' && eqStar cs

/-- Matches the regex fragment `[A-Za-z0-9+/_-]+=*`. -/
def classThenEq : List Char → Bool
  | [] => false
  | c :: cs => isClassChar c && (classThenEq cs || eqStar cs)

/-- `looksLikeB64` of src/app.js on an actual string: length at least 8
and full match of `/^[A-Za-z0-9+/_-]+=*$/`. (JS `length` counts UTF-16
units, Lean counts code points; the two differ only on strings that fail
the ASCII-only regex in both readings.) -/
def looksLikeB64 (s : String) : Bool :=
  decide (s.length ≥ 8) && classThenEq s.data

/-- `looksLikeB64` applied to an arbitrary JS value: the `typeof`
guard makes it false on every non-string. -/
def looksLikeB64J : Json → Bool
  | Json.str s => looksLikeB64 s
  | _ => false

/-- The string payload of a JSON value (defaulting to `""`); used only
under a `looksLikeB64J` guard, where the value is certainly a string. -/
def jsStrVal : Json → String
  | Json.str s => s
  | _ => ""

/-! ### Base64 codec

`Buffer.from(s, "base64")` (Node) never throws on a string: it collects
the base64 digits of the alphabet characters, ignoring every other
character (including `=`), and decodes 6-bit groups, dropping a trailing
lone digit.  `Buffer.toString("base64")` produces standard padded
base64. -/

/-- Value of a standard-alphabet base64 character (`A-Z a-z 0-9 + /`),
or `none` for every other character. -/
def b64Value (c : Char) : Option Nat :=
  let n := c.toNat
  if 65 ≤ n ∧ n ≤ 90 then some (n - 65)
  else if 97 ≤ n ∧ n ≤ 122 then some (n - 97 + 26)
  else if 48 ≤ n ∧ n ≤ 57 then some (n - 48 + 52)
  else if n = 43 then some 62
  else if n = 47 then some 63
  else none

/-- Character of a 6-bit value in the standard base64 alphabet. -/
def b64Char (d : Nat) : Char :=
  Char.ofNat
    (if d < 26 then 65 + d
     else if d < 52 then 97 + (d - 26)
     else if d < 62 then 48 + (d - 52)
     else if d = 62 then 43 else 47)

/-- Decode a list of 6-bit digit values into bytes, as Node's base64
decoder does: groups of four digits give three bytes, a trailing pair or
triple gives one or two bytes, a trailing lone digit is dropped. -/
def decodeDigits : List Nat → List Nat
  | d1 :: d2 :: d3 :: d4 :: rest =>
    (d1 * 4 + d2 / 16) :: ((d2 % 16) * 16 + d3 / 4) :: ((d3 % 4) * 64 + d4) ::
      decodeDigits rest
  | [d1, d2] => [d1 * 4 + d2 / 16]
  | [d1, d2, d3] => [d1 * 4 + d2 / 16, (d2 % 16) * 16 + d3 / 4]
  | _ => []

/-- `Buffer.from(s, "base64")`: base64 digits of the alphabet characters
(all other characters ignored), decoded in 6-bit groups. Total: Node's
decoder never throws on a string input. -/
def nodeB64Decode (s : String) : List Nat :=
  decodeDigits (s.data.filterMap b64Value)

/-- Characters of `Buffer.toString("base64")`: standard alphabet with
`=` padding, three input bytes per four output characters. -/
def encChars : List Nat → List Char
  | b1 :: b2 :: b3 :: rest =>
    b64Char (b1 / 4) :: b64Char ((b1 % 4) * 16 + b2 / 16) ::
      b64Char ((b2 % 16) * 4 + b3 / 64) :: b64Char (b3 % 64) :: encChars rest
  | [b1] => [b64Char (b1 / 4), b64Char ((b1 % 4) * 16), '=', '=']
  | [b1, b2] => [b64Char (b1 / 4), b64Char ((b1 % 4) * 16 + b2 / 16),
      b64Char ((b2 % 16) * 4), '=']
  | [] => []

/-- `Buffer.from(bytes).toString("base64")`. -/
def b64encode (bs : List Nat) : String :=
  String.mk (encChars bs)

/-! ### `b64urlToBuf` (src/app.js lines 44-49) -/

/-- The whitespace class of JS `String.prototype.trim`, by code point
(ASCII whitespace, NBSP, BOM, line/paragraph separators; the exotic
Unicode space family is irrelevant here since every claim's input is
ASCII). -/
def isJsWs (c : Char) : Bool :=
  let n := c.toNat
  n = 32 || n = 9 || n = 10 || n = 13 || n = 11 || n = 12 ||
  n = 160 || n = 0xFEFF || n = 0x2028 || n = 0x2029

/-- `s.trim()`: drop leading and trailing whitespace. -/
def jsTrim (s : String) : String :=
  String.mk (((s.data.dropWhile isJsWs).reverse.dropWhile isJsWs).reverse)

/-- The two global `s.replace` calls of `b64urlToBuf`: every dash
(U+002D) becomes `+` and every underscore (U+005F) becomes a slash,
character by character. -/
def urlNorm (c : Char) : Char :=
  if c.toNat = 45 then '+' else if c.toNat = 95 then '/' else c

/-- The URL-safe-to-standard alphabet translation of `b64urlToBuf`. -/
def jsReplaceUrl (s : String) : String :=
  String.mk (s.data.map urlNorm)

/-- The padding loop `while (b64.length % 4) b64 += "="`. -/
def padEq (s : String) : String :=
  String.mk (s.data ++ List.replicate ((4 - s.data.length % 4) % 4) '=')

/-- `b64urlToBuf` of src/app.js: `null` on non-strings; on a string,
trim, translate the URL-safe alphabet, pad to a multiple of four and
decode.  The `try/catch` around `Buffer.from` is dead code (the decoder
is total on strings), so the string branch always succeeds. -/
def b64urlToBuf (j : Json) : Option (List Nat) :=
  match j with
  | Json.str s => some (nodeB64Decode (padEq (jsReplaceUrl (jsTrim s))))
  | _ => none

/-! ### The envelope locator `pickBase64` (src/app.js lines 56-87) -/

/-- The result object `{ key, b64, path }` of a successful search. -/
structure Found where
  key : String
  b64 : String
  path : String
  deriving Repr, DecidableEq

theorem jsonLookup_sizeOf {l : List (String × Json)} {k : String} {v : Json}
    (h : jsonLookup l k = some v) : sizeOf v < sizeOf l := by
  induction l with
  | nil => simp [jsonLookup] at h
  | cons p t ih =>
    obtain ⟨k', v'⟩ := p
    by_cases hk : k' = k
    · simp [jsonLookup, hk] at h
      subst h
      simp only [List.cons.sizeOf_spec, Prod.mk.sizeOf_spec]
      omega
    · simp [jsonLookup, hk] at h
      have := ih h
      simp only [List.cons.sizeOf_spec]
      omega

theorem getElem?_sizeOf {xs : List Json} {i : Nat} {v : Json}
    (h : xs[i]? = some v) : sizeOf v < sizeOf xs := by
  have hm : v ∈ xs := by
    have := List.getElem?_eq_some.mp h
    obtain ⟨hlt, heq⟩ := this
    exact heq ▸ List.getElem_mem hlt
  exact List.sizeOf_lt_of_mem hm

theorem jsGet_sizeOf {j : Json} {k : String} {v : Json}
    (h : jsGet j k = some v) : sizeOf v < sizeOf j := by
  cases j with
  | obj l =>
    simp only [jsGet] at h
    have := jsonLookup_sizeOf h
    simp only [Json.obj.sizeOf_spec]
    omega
  | arr xs =>
    simp only [jsGet] at h
    cases hc : canonIndex k with
    | none => rw [hc] at h; simp at h
    | some i =>
      rw [hc] at h
      have := getElem?_sizeOf h
      simp only [Json.arr.sizeOf_spec]
      omega
  | null => simp [jsGet] at h
  | bool b => simp [jsGet] at h
  | num n => simp [jsGet] at h
  | str s => simp [jsGet] at h

mutual

/-- `pickBase64(body, preferredKeys, enableRecursive)` of src/app.js:
return `null` unless `body` is truthy and of `typeof "object"`; then run
the preferred-name pass; then, when recursion is enabled, the structural
pass (arrays by index, objects by entry order). -/
def pickBase64 (body : Json) (prefs : List String) (recur : Bool) :
    Option Found :=
  if jsTruthy body && jsTypeofObject body then
    match prefPass body prefs prefs recur with
    | some r => some r
    | none =>
      if recur then
        match body with
        | Json.arr xs => structArr xs prefs recur 0
        | Json.obj l => structObj l prefs recur
        | _ => none
      else none
  else none
termination_by (sizeOf body, 2, 0)

/-- The preferred-name loop of `pickBase64`: for each name `k` in order,
return the value `body[k]` if it looks like base64; otherwise, when
`k in body` and `body[k]` is of object type, recurse into it with the
full preferred list, prefixing the returned path with the name. -/
def prefPass (body : Json) (allPrefs remaining : List String)
    (recur : Bool) : Option Found :=
  match remaining with
  | [] => none
  | k :: ks =>
    match h : jsGet body k with
    | some (Json.str s) =>
      if looksLikeB64 s then some ⟨k, s, k⟩
      else prefPass body allPrefs ks recur
    | some v =>
      if jsTypeofObject v then
        match pickBase64 v allPrefs recur with
        | some r => some ⟨r.key, r.b64, k ++ "." ++ r.path⟩
        | none => prefPass body allPrefs ks recur
      else prefPass body allPrefs ks recur
    | none => prefPass body allPrefs ks recur
termination_by (sizeOf body, 1, remaining.length)
decreasing_by
  all_goals first
    | decreasing_tactic
    | (simp_wf
       apply Prod.Lex.left
       exact jsGet_sizeOf h)

/-- The structural pass over an array: recurse into each element in
index order (a string element is never tested directly), prefixing the
path with the bracketed index. -/
def structArr (xs : List Json) (prefs : List String) (recur : Bool)
    (i : Nat) : Option Found :=
  match xs with
  | [] => none
  | x :: rest =>
    match pickBase64 x prefs recur with
    | some r => some ⟨r.key, r.b64, "[" ++ toString i ++ "]." ++ r.path⟩
    | none => structArr rest prefs recur (i + 1)
termination_by (sizeOf xs, 2, 0)

/-- The structural pass over an object's entries in insertion order:
return a string value that looks like base64; recurse into truthy values
of object type, prefixing the path with the key. -/
def structObj (l : List (String × Json)) (prefs : List String)
    (recur : Bool) : Option Found :=
  match l with
  | [] => none
  | (k, v) :: rest =>
    if looksLikeB64J v then some ⟨k, jsStrVal v, k⟩
    else if jsTruthy v && jsTypeofObject v then
      match pickBase64 v prefs recur with
      | some r => some ⟨r.key, r.b64, k ++ "." ++ r.path⟩
      | none => structObj rest prefs recur
    else structObj rest prefs recur
termination_by (sizeOf l, 2, 0)

end

/-- The loop body of the preferred-name pass at one name, as a miss
test: name `k` contributes nothing when `body[k]` is absent, is a
string that does not look like base64, is a non-object primitive, or is
an object-typed value in which the full recursive search fails. -/
def prefStepMiss (body : Json) (k : String) (allPrefs : List String) : Bool :=
  match jsGet body k with
  | none => true
  | some (Json.str s) => !looksLikeB64 s
  | some v =>
    if jsTypeofObject v then (pickBase64 v allPrefs true).isNone else true

mutual

/-- No preferred name is usable anywhere in the value: every name of
`prefs` reads as absent (`body[k]` undefined) on this value and,
recursively, on every nested object field and array element.  Under
this condition every preferred-name pass of `pickBase64` is inert. -/
def prefsUntouched (j : Json) (prefs : List String) : Bool :=
  match j with
  | Json.obj l =>
    (prefs.all fun k => (jsGet (Json.obj l) k).isNone) && puFields l prefs
  | Json.arr xs =>
    (prefs.all fun k => (jsGet (Json.arr xs) k).isNone) && puElems xs prefs
  | _ => true

/-- `prefsUntouched` over an object's fields. -/
def puFields (l : List (String × Json)) (prefs : List String) : Bool :=
  match l with
  | [] => true
  | (_, v) :: t => prefsUntouched v prefs && puFields t prefs

/-- `prefsUntouched` over an array's elements. -/
def puElems (xs : List Json) (prefs : List String) : Bool :=
  match xs with
  | [] => true
  | x :: t => prefsUntouched x prefs && puElems t prefs

end

mutual

/-- The structural depth-first search of the amended fallback claim:
visit array elements in index order (recursing only, so a string that
is a direct array element is never tested), visit object entries in
insertion order, returning the first string entry value that looks like
base64 or the first nested hit; primitives yield nothing. -/
def specDfs : Json → Option Found
  | Json.arr xs => specDfsArr xs 0
  | Json.obj l => specDfsObj l
  | _ => none

/-- `specDfs` over array elements, tracking the index for the path. -/
def specDfsArr : List Json → Nat → Option Found
  | [], _ => none
  | x :: rest, i =>
    match specDfs x with
    | some r => some ⟨r.key, r.b64, "[" ++ toString i ++ "]." ++ r.path⟩
    | none => specDfsArr rest (i + 1)

/-- `specDfs` over object entries in insertion order. -/
def specDfsObj : List (String × Json) → Option Found
  | [] => none
  | (k, v) :: rest =>
    if looksLikeB64J v then some ⟨k, jsStrVal v, k⟩
    else if jsTruthy v && jsTypeofObject v then
      match specDfs v with
      | some r => some ⟨r.key, r.b64, k ++ "." ++ r.path⟩
      | none => specDfsObj rest
    else specDfsObj rest

end

/-! ### Route handlers (src/app.js lines 91-160)

The external KMS client is an opaque collaborator: `kms.encrypt` and
`kms.decrypt` are modelled as functions from the byte payload to either
a result byte sequence or a thrown error, abstracted as the `detail`
string the handler would extract from it (`String(e?.message || e)`).
`wrapRun`/`unwrapRun` also return the number of provider invocations
performed, which the JS control flow determines exactly. -/

/-- An abstract provider call: bytes in, bytes out or a thrown error
(represented by its eventual `detail` string). -/
abbrev Provider := List Nat → Except String (List Nat)

/-- A route handler's outcome: HTTP status plus JSON body. -/
structure RouteOut where
  status : Nat
  body : Json
  deriving Repr

/-- The preferred field names of `POST /wrap`, in source order. -/
def wrapPreferred : List String :=
  ["key", "key_to_wrap_b64", "keyToWrapB64", "keyToWrap",
   "dek", "plaintext_b64", "plaintext", "data"]

/-- The preferred field names of `POST /unwrap`, in source order. -/
def unwrapPreferred : List String :=
  ["wrapped_key", "wrapped_key_b64", "wrappedKeyB64", "wrappedDek",
   "ciphertext_b64", "ciphertext", "data"]

/-- `req.body` as the handlers see it: `none` models the `undefined`
body of a request the JSON middleware did not parse. -/
abbrev ReqBody := Option Json

/-- `pickBase64(req.body, ...)`: an `undefined` body fails the
`!body` guard immediately. -/
def pickOpt (b : ReqBody) (prefs : List String) : Option Found :=
  match b with
  | some j => pickBase64 j prefs true
  | none => none

/-- The error-envelope signal `typeof req.body?.reason === "string"`,
carrying the reason string when set. -/
def reasonVal (b : ReqBody) : Option String :=
  match b with
  | some j =>
    match jsGet j "reason" with
    | some (Json.str r) => some r
    | _ => none
  | none => none

/-- `Object.keys(req.body || {})`: field names of an object in insertion
order, index strings for an array or a string, `[]` for everything else
(`null` and `undefined` are replaced by `{}` by the `||`). -/
def jsKeys (b : ReqBody) : List String :=
  match b with
  | some (Json.obj l) => l.map (fun p => p.1)
  | some (Json.arr xs) => (List.range xs.length).map toString
  | some (Json.str s) => (List.range s.length).map toString
  | _ => []

/-- The `POST /wrap` handler body (src/app.js lines 102-131), paired
with the number of `kms.encrypt` invocations it performs. -/
def wrapRun (encrypt : Provider) (b : ReqBody) : RouteOut × Nat :=
  match pickOpt b wrapPreferred with
  | none =>
    match reasonVal b with
    | some r =>
      (⟨200, Json.obj [("ok", Json.bool true),
        ("note", Json.str "noop (error envelope)"),
        ("reason", Json.str r)]⟩, 0)
    | none =>
      (⟨400, Json.obj [("error", Json.str "missing DEK (base64)"),
        ("received_keys", Json.arr ((jsKeys b).map Json.str))]⟩, 0)
  | some got =>
    match b64urlToBuf (Json.str got.b64) with
    | none => (⟨400, Json.obj [("error", Json.str "invalid base64/plaintext")]⟩, 0)
    | some plaintext =>
      match encrypt plaintext with
      | Except.error e =>
        (⟨500, Json.obj [("error", Json.str "wrap_failed"),
          ("detail", Json.str e)]⟩, 1)
      | Except.ok ct =>
        (⟨200, Json.obj [("wrapped_key", Json.str (b64encode ct))]⟩, 1)

/-- The `POST /unwrap` handler body (src/app.js lines 134-160), paired
with the number of `kms.decrypt` invocations it performs. -/
def unwrapRun (decrypt : Provider) (b : ReqBody) : RouteOut × Nat :=
  match pickOpt b unwrapPreferred with
  | none =>
    (⟨400, Json.obj [("error", Json.str "missing wrapped_key/ciphertext (base64)"),
      ("received_keys", Json.arr ((jsKeys b).map Json.str))]⟩, 0)
  | some got =>
    match b64urlToBuf (Json.str got.b64) with
    | none => (⟨400, Json.obj [("error", Json.str "invalid base64/ciphertext")]⟩, 0)
    | some ciphertext =>
      match decrypt ciphertext with
      | Except.error e =>
        (⟨500, Json.obj [("error", Json.str "unwrap_failed"),
          ("detail", Json.str e)]⟩, 1)
      | Except.ok pt =>
        (⟨200, Json.obj [("key", Json.str (b64encode pt))]⟩, 1)

/-- `GET /` response body. -/
def rootBody : Json :=
  Json.obj [("ok", Json.bool true), ("tip", Json.str "use /status, /wrap, /unwrap")]

/-- `GET /status` response body, for the configured key resource. -/
def statusBody (keyResource : String) : Json :=
  Json.obj [("server_type", Json.str "KACLS"),
    ("vendor_id", Json.str "POC"),
    ("version", Json.str "2.3.0"),
    ("operations_supported", Json.arr [Json.str "wrap", Json.str "unwrap"]),
    ("key_resource", Json.str keyResource)]

/-- `GET /.well-known/kacls` response body. -/
def wellKnownBody : Json :=
  Json.obj [("ok", Json.bool true), ("path", Json.str "/.well-known/kacls")]

/-! ### CORS gate and service dispatch (src/app.js lines 20-41) -/

/-- The body input as it arrives at the middleware stack:
`noJson` is a request the JSON middleware leaves unparsed (no JSON
content type or no body; `req.body` stays `undefined`), `malformed` is a
JSON-typed body that fails to parse, `parsed` a successfully parsed
JSON value. -/
inductive BodyIn where
  | noJson : BodyIn
  | malformed : BodyIn
  | parsed (j : Json) : BodyIn
  deriving Repr

/-- The request attributes the middleware and routes inspect. -/
structure Request where
  method : String
  path : String
  origin : Option String
  acrh : Option String
  body : BodyIn

/-- JS `x || d` on an optional header value: an absent or empty header
falls back to the default. -/
def jsOr (o : Option String) (d : String) : String :=
  match o with
  | some s => if s = "" then d else s
  | none => d

/-- The headers the CORS middleware attaches to every response. -/
def corsHeaders (req : Request) : List (String × String) :=
  [("Access-Control-Allow-Origin",
      jsOr req.origin "https://client-side-encryption.google.com"),
   ("Access-Control-Allow-Credentials", "true"),
   ("Vary", "Origin"),
   ("Access-Control-Allow-Methods", "GET,POST,OPTIONS,HEAD"),
   ("Access-Control-Allow-Headers",
      jsOr req.acrh
        "Content-Type, Authorization, X-Requested-With, X-Goog-AuthAssertion, X-Goog-Api-Client, X-Client-Data"),
   ("Access-Control-Max-Age", "86400")]

/-- First-match lookup in a header list. -/
def headerVal : List (String × String) → String → Option String
  | [], _ => none
  | (k', v) :: t, k => if k' = k then some v else headerVal t k

/-- A full HTTP response: status, headers, and an optional body
(`none` is an empty body, as in `res.status(204).end()`). -/
structure HRes where
  status : Nat
  headers : List (String × String)
  body : Option Json
  deriving Repr

/-- The Express default error response produced when `bodyParser.json`
rejects a malformed JSON body (`entity.parse.failed`, HTTP 400): a
framework-generated text page, modelled as a distinguished string body.
No error-handling middleware is installed in src/app.js, so this
response reaches the client. -/
def parseFailBody : Json :=
  Json.str "framework error page: entity.parse.failed"

/-- `req.body` as the route handlers receive it. -/
def bodyOf : BodyIn → ReqBody
  | BodyIn.parsed j => some j
  | _ => none

/-- The composed service (src/app.js): CORS middleware first (with its
OPTIONS/HEAD short-circuit), then the JSON body middleware (a malformed
body aborts to the framework error handler), then routing; unmatched
routes get Express's default 404 (text body, modelled as `none`). -/
def service (encrypt decrypt : Provider) (keyResource : String)
    (req : Request) : HRes :=
  let hs := corsHeaders req
  if req.method = "OPTIONS" ∨ req.method = "HEAD" then ⟨204, hs, none⟩
  else
    match req.body with
    | BodyIn.malformed => ⟨400, hs, some parseFailBody⟩
    | b =>
      match req.method, req.path with
      | "GET", "/" => ⟨200, hs, some rootBody⟩
      | "GET", "/status" => ⟨200, hs, some (statusBody keyResource)⟩
      | "GET", "/.well-known/kacls" => ⟨200, hs, some wellKnownBody⟩
      | "POST", "/wrap" =>
        let r := (wrapRun encrypt (bodyOf b)).1
        ⟨r.status, hs, some r.body⟩
      | "POST", "/unwrap" =>
        let r := (unwrapRun decrypt (bodyOf b)).1
        ⟨r.status, hs, some r.body⟩
      | _, _ => ⟨404, hs, none⟩

/-! ### Lemmas about the base64 codec -/

theorem b64Value_b64Char : ∀ d, d < 64 → b64Value (b64Char d) = some d := by
  decide

theorem isClassChar_b64Char : ∀ d, d < 64 → isClassChar (b64Char d) = true := by
  decide

theorem not_ws_b64Char : ∀ d, d < 64 → isJsWs (b64Char d) = false := by
  decide

theorem urlNorm_b64Char : ∀ d, d < 64 → urlNorm (b64Char d) = b64Char d := by
  decide

theorem decode_encChars :
    ∀ bs : List Nat, (∀ x ∈ bs, x < 256) →
      decodeDigits ((encChars bs).filterMap b64Value) = bs
  | [], _ => by simp [encChars, decodeDigits]
  | [b1], h => by
    have hb1 : b1 < 256 := h b1 (by simp)
    simp only [encChars, List.filterMap_cons,
      b64Value_b64Char (b1 / 4) (by omega),
      b64Value_b64Char (b1 % 4 * 16) (by omega)]
    have he : b64Value '=' = none := by decide
    simp only [he, List.filterMap_nil, decodeDigits]
    simp only [List.cons.injEq, and_true]
    omega
  | [b1, b2], h => by
    have hb1 : b1 < 256 := h b1 (by simp)
    have hb2 : b2 < 256 := h b2 (by simp)
    simp only [encChars, List.filterMap_cons,
      b64Value_b64Char (b1 / 4) (by omega),
      b64Value_b64Char (b1 % 4 * 16 + b2 / 16) (by omega),
      b64Value_b64Char (b2 % 16 * 4) (by omega)]
    have he : b64Value '=' = none := by decide
    simp only [he, List.filterMap_nil, decodeDigits]
    simp only [List.cons.injEq, and_true]
    omega
  | b1 :: b2 :: b3 :: rest, h => by
    have hb1 : b1 < 256 := h b1 (by simp)
    have hb2 : b2 < 256 := h b2 (by simp)
    have hb3 : b3 < 256 := h b3 (by simp)
    have ih := decode_encChars rest (fun x hx => h x (by simp [hx]))
    simp only [encChars, List.filterMap_cons,
      b64Value_b64Char (b1 / 4) (by omega),
      b64Value_b64Char (b1 % 4 * 16 + b2 / 16) (by omega),
      b64Value_b64Char (b2 % 16 * 4 + b3 / 64) (by omega),
      b64Value_b64Char (b3 % 64) (by omega)]
    simp only [decodeDigits, ih]
    simp only [List.cons.injEq, and_true]
    omega

theorem classThenEq_cons {c : Char} {cs : List Char}
    (hc : isClassChar c = true) (hcs : classThenEq cs = true) :
    classThenEq (c :: cs) = true := by
  simp [classThenEq, hc, hcs]

theorem encChars_classThenEq :
    ∀ bs : List Nat, bs ≠ [] → (∀ x ∈ bs, x < 256) →
      classThenEq (encChars bs) = true
  | [], hne, _ => absurd rfl hne
  | [b1], _, h => by
    have hb1 : b1 < 256 := h b1 (by simp)
    simp only [encChars]
    simp [classThenEq, eqStar, isClassChar_b64Char (b1 / 4) (by omega),
      isClassChar_b64Char (b1 % 4 * 16) (by omega)]
  | [b1, b2], _, h => by
    have hb1 : b1 < 256 := h b1 (by simp)
    have hb2 : b2 < 256 := h b2 (by simp)
    simp only [encChars]
    simp [classThenEq, eqStar, isClassChar_b64Char (b1 / 4) (by omega),
      isClassChar_b64Char (b1 % 4 * 16 + b2 / 16) (by omega),
      isClassChar_b64Char (b2 % 16 * 4) (by omega)]
  | b1 :: b2 :: b3 :: rest, _, h => by
    have hb1 : b1 < 256 := h b1 (by simp)
    have hb2 : b2 < 256 := h b2 (by simp)
    have hb3 : b3 < 256 := h b3 (by simp)
    have h1 : isClassChar (b64Char (b1 / 4)) = true :=
      isClassChar_b64Char _ (by omega)
    have h2 : isClassChar (b64Char (b1 % 4 * 16 + b2 / 16)) = true :=
      isClassChar_b64Char _ (by omega)
    have h3 : isClassChar (b64Char (b2 % 16 * 4 + b3 / 64)) = true :=
      isClassChar_b64Char _ (by omega)
    have h4 : isClassChar (b64Char (b3 % 64)) = true :=
      isClassChar_b64Char _ (by omega)
    cases rest with
    | nil =>
      simp only [encChars]
      simp [classThenEq, eqStar, h1, h2, h3, h4]
    | cons r rs =>
      have ih := encChars_classThenEq (r :: rs) (by simp)
        (fun x hx => h x (by simp at hx ⊢; tauto))
      simp only [encChars]
      exact classThenEq_cons h1 (classThenEq_cons h2 (classThenEq_cons h3
        (classThenEq_cons h4 ih)))

theorem encChars_len_mod : ∀ bs : List Nat, (encChars bs).length % 4 = 0
  | [] => by simp [encChars]
  | [b1] => by simp [encChars]
  | [b1, b2] => by simp [encChars]
  | b1 :: b2 :: b3 :: rest => by
    have ih := encChars_len_mod rest
    simp only [encChars, List.length_cons]
    omega

theorem encChars_mem :
    ∀ bs : List Nat, (∀ x ∈ bs, x < 256) →
      ∀ c ∈ encChars bs, (∃ d, d < 64 ∧ c = b64Char d) ∨ c = '='
  | [], _, c, hc => by simp [encChars] at hc
  | [b1], h, c, hc => by
    have hb1 : b1 < 256 := h b1 (by simp)
    simp only [encChars] at hc
    simp at hc
    rcases hc with hc | hc | hc
    · exact Or.inl ⟨b1 / 4, by omega, hc⟩
    · exact Or.inl ⟨b1 % 4 * 16, by omega, hc⟩
    · exact Or.inr hc
  | [b1, b2], h, c, hc => by
    have hb1 : b1 < 256 := h b1 (by simp)
    have hb2 : b2 < 256 := h b2 (by simp)
    simp only [encChars] at hc
    simp at hc
    rcases hc with hc | hc | hc | hc
    · exact Or.inl ⟨b1 / 4, by omega, hc⟩
    · exact Or.inl ⟨b1 % 4 * 16 + b2 / 16, by omega, hc⟩
    · exact Or.inl ⟨b2 % 16 * 4, by omega, hc⟩
    · exact Or.inr hc
  | b1 :: b2 :: b3 :: rest, h, c, hc => by
    have hb1 : b1 < 256 := h b1 (by simp)
    have hb2 : b2 < 256 := h b2 (by simp)
    have hb3 : b3 < 256 := h b3 (by simp)
    simp only [encChars, List.mem_cons] at hc
    rcases hc with hc | hc | hc | hc | hc
    · exact Or.inl ⟨b1 / 4, by omega, hc⟩
    · exact Or.inl ⟨b1 % 4 * 16 + b2 / 16, by omega, hc⟩
    · exact Or.inl ⟨b2 % 16 * 4 + b3 / 64, by omega, hc⟩
    · exact Or.inl ⟨b3 % 64, by omega, hc⟩
    · exact encChars_mem rest (fun x hx => h x (by simp [hx])) c hc

theorem dropWhile_of_all {p : Char → Bool} :
    ∀ l : List Char, (∀ c ∈ l, p c = false) → l.dropWhile p = l
  | [], _ => rfl
  | c :: cs, h => by
    have := h c (by simp)
    simp [List.dropWhile_cons, this]

theorem map_self_of {f : Char → Char} :
    ∀ l : List Char, (∀ c ∈ l, f c = c) → l.map f = l
  | [], _ => rfl
  | c :: cs, h => by
    have hc := h c (by simp)
    have := map_self_of cs (fun x hx => h x (by simp [hx]))
    simp [hc, this]

theorem b64url_enc (bs : List Nat) (h : ∀ x ∈ bs, x < 256) :
    b64urlToBuf (Json.str (b64encode bs)) = some bs := by
  have hmem := encChars_mem bs h
  have hnws : ∀ c ∈ encChars bs, isJsWs c = false := by
    intro c hc
    rcases hmem c hc with ⟨d, hd, rfl⟩ | rfl
    · exact not_ws_b64Char d hd
    · decide
  have hnorm : ∀ c ∈ encChars bs, urlNorm c = c := by
    intro c hc
    rcases hmem c hc with ⟨d, hd, rfl⟩ | rfl
    · exact urlNorm_b64Char d hd
    · decide
  have htrim : jsTrim (b64encode bs) = b64encode bs := by
    simp only [jsTrim, b64encode]
    rw [dropWhile_of_all _ hnws]
    rw [dropWhile_of_all _ (by intro c hc; exact hnws c (List.mem_reverse.mp hc))]
    simp
  have hrep : jsReplaceUrl (b64encode bs) = b64encode bs := by
    simp only [jsReplaceUrl, b64encode]
    rw [map_self_of _ hnorm]
  have hpad : padEq (b64encode bs) = b64encode bs := by
    simp only [padEq, b64encode]
    have := encChars_len_mod bs
    have hz : (4 - (encChars bs).length % 4) % 4 = 0 := by omega
    rw [hz]
    simp
  rw [b64urlToBuf, htrim, hrep, hpad]
  simp only [nodeB64Decode, b64encode]
  rw [decode_encChars bs h]

theorem looks_enc (bs : List Nat) (hlen : 8 ≤ (b64encode bs).length)
    (h : ∀ x ∈ bs, x < 256) : looksLikeB64 (b64encode bs) = true := by
  have hne : bs ≠ [] := by
    intro he
    subst he
    simp [b64encode, encChars] at hlen
  simp only [looksLikeB64, Bool.and_eq_true, decide_eq_true_eq]
  exact ⟨hlen, encChars_classThenEq bs hne h⟩

/-! ### Lemmas about the preferred-name pass -/

theorem prefPass_skip (body : Json) (all : List String) :
    ∀ pre rest : List String,
      (∀ k' ∈ pre, prefStepMiss body k' all = true) →
      prefPass body all (pre ++ rest) true = prefPass body all rest true
  | [], _, _ => by simp
  | k' :: pre', rest, h => by
    have hk' := h k' (by simp)
    have ih := prefPass_skip body all pre' rest (fun x hx => h x (by simp [hx]))
    simp only [List.cons_append, prefPass]
    split
    · rename_i s heq
      simp only [prefStepMiss, heq] at hk'
      simp only [Bool.not_eq_true'] at hk'
      simp [hk', ih]
    · rename_i v hne heq
      simp only [prefStepMiss, heq] at hk'
      cases v with
      | str s => exact absurd rfl (hne s)
      | null =>
        simp only [jsTypeofObject] at hk' ⊢
        simp only [if_true, Option.isNone_iff_eq_none] at hk'
        simp [hk', ih]
      | arr xs =>
        simp only [jsTypeofObject] at hk' ⊢
        simp only [if_true, Option.isNone_iff_eq_none] at hk'
        simp [hk', ih]
      | obj m =>
        simp only [jsTypeofObject] at hk' ⊢
        simp only [if_true, Option.isNone_iff_eq_none] at hk'
        simp [hk', ih]
      | bool b => simp [jsTypeofObject, ih]
      | num n => simp [jsTypeofObject, ih]
    · exact ih

theorem prefPass_hit (body : Json) (all : List String) (k : String)
    (post : List String) (v : String)
    (hg : jsGet body k = some (Json.str v)) (hv : looksLikeB64 v = true) :
    prefPass body all (k :: post) true = some ⟨k, v, k⟩ := by
  simp only [prefPass]
  split
  · rename_i s heq
    rw [hg] at heq
    simp only [Option.some.injEq, Json.str.injEq] at heq
    subst heq
    simp [hv]
  · rename_i v' hne heq
    rw [hg] at heq
    simp only [Option.some.injEq] at heq
    exact absurd heq.symm (hne v)
  · rename_i heq
    rw [hg] at heq
    exact absurd heq (by simp)

theorem pick_pref_hit (l : List (String × Json))
    (pre post : List String) (k v : String)
    (hg : jsGet (Json.obj l) k = some (Json.str v))
    (hv : looksLikeB64 v = true)
    (hmiss : ∀ k' ∈ pre, prefStepMiss (Json.obj l) k' (pre ++ k :: post) = true) :
    pickBase64 (Json.obj l) (pre ++ k :: post) true = some ⟨k, v, k⟩ := by
  have hpp : prefPass (Json.obj l) (pre ++ k :: post) (pre ++ k :: post) true =
      some ⟨k, v, k⟩ := by
    rw [prefPass_skip _ _ pre (k :: post) hmiss]
    exact prefPass_hit _ _ k post v hg hv
  simp only [pickBase64, jsTruthy, jsTypeofObject, Bool.and_self, if_pos, hpp]

/-! ### Lemmas for the structural fallback pass -/

theorem prefPass_none (body : Json) (all : List String) :
    ∀ remaining : List String,
      (∀ k' ∈ remaining, jsGet body k' = none) →
      prefPass body all remaining true = none
  | [], _ => by simp [prefPass]
  | k' :: ks, h => by
    have hk' := h k' (by simp)
    have ih := prefPass_none body all ks (fun x hx => h x (by simp [hx]))
    simp only [prefPass]
    split
    · rename_i s heq
      rw [hk'] at heq
      exact absurd heq (by simp)
    · rename_i v hne heq
      rw [hk'] at heq
      exact absurd heq (by simp)
    · exact ih

theorem prefsUntouched_get {j : Json} {prefs : List String}
    (h : prefsUntouched j prefs = true) :
    ∀ k ∈ prefs, jsGet j k = none := by
  intro k hk
  cases j with
  | obj l =>
    simp only [prefsUntouched, Bool.and_eq_true, List.all_eq_true] at h
    have := h.1 k hk
    simpa [Option.isNone_iff_eq_none] using this
  | arr xs =>
    simp only [prefsUntouched, Bool.and_eq_true, List.all_eq_true] at h
    have := h.1 k hk
    simpa [Option.isNone_iff_eq_none] using this
  | null => simp [jsGet]
  | bool b => simp [jsGet]
  | num n => simp [jsGet]
  | str s => simp [jsGet]

mutual

theorem pick_eq_spec (j : Json) (prefs : List String)
    (h : prefsUntouched j prefs = true) :
    pickBase64 j prefs true = specDfs j := by
  cases j with
  | null => simp [pickBase64, specDfs, jsTruthy]
  | bool b => simp [pickBase64, specDfs, jsTruthy, jsTypeofObject]
  | num n => simp [pickBase64, specDfs, jsTruthy, jsTypeofObject]
  | str s => simp [pickBase64, specDfs, jsTruthy, jsTypeofObject]
  | arr xs =>
    have hpp := prefPass_none (Json.arr xs) prefs prefs (prefsUntouched_get h)
    have he : puElems xs prefs = true := by
      simp only [prefsUntouched, Bool.and_eq_true] at h
      exact h.2
    simp only [pickBase64, jsTruthy, jsTypeofObject, Bool.and_self, if_true,
      hpp, specDfs]
    exact structArr_eq xs prefs 0 he
  | obj l =>
    have hpp := prefPass_none (Json.obj l) prefs prefs (prefsUntouched_get h)
    have he : puFields l prefs = true := by
      simp only [prefsUntouched, Bool.and_eq_true] at h
      exact h.2
    simp only [pickBase64, jsTruthy, jsTypeofObject, Bool.and_self, if_true,
      hpp, specDfs]
    exact structObj_eq l prefs he

theorem structArr_eq (xs : List Json) (prefs : List String) (i : Nat)
    (h : puElems xs prefs = true) :
    structArr xs prefs true i = specDfsArr xs i := by
  cases xs with
  | nil => simp [structArr, specDfsArr]
  | cons x rest =>
    simp only [puElems, Bool.and_eq_true] at h
    have hx := pick_eq_spec x prefs h.1
    have ih := structArr_eq rest prefs (i + 1) h.2
    simp only [structArr, specDfsArr, hx, ih]

theorem structObj_eq (l : List (String × Json)) (prefs : List String)
    (h : puFields l prefs = true) :
    structObj l prefs true = specDfsObj l := by
  cases l with
  | nil => simp [structObj, specDfsObj]
  | cons p rest =>
    obtain ⟨k, v⟩ := p
    simp only [puFields, Bool.and_eq_true] at h
    have hv := pick_eq_spec v prefs h.1
    have ih := structObj_eq rest prefs h.2
    simp only [structObj, specDfsObj, hv, ih]

end

/-! ### Claim C1 -/

/-- C1 counterexample: in
`{ key: { a: "AAAAAAAA" }, dek: "BBBBBBBB" }` the preferred name `dek`
holds a qualifying base64 string, yet `pickBase64` returns the value
found by the structural (non-preferred) search inside the earlier
preferred name `key`'s subtree — under the non-preferred key `a` — so a
qualifying string under a preferred name is not returned before every
non-preferred/structural search. -/
theorem c1_counterexample :
    pickBase64
      (Json.obj [("key", Json.obj [("a", Json.str "AAAAAAAA")]),
                 ("dek", Json.str "BBBBBBBB")]) wrapPreferred true =
      some ⟨"a", "AAAAAAAA", "key.a"⟩ ∧
    jsGet (Json.obj [("key", Json.obj [("a", Json.str "AAAAAAAA")]),
                 ("dek", Json.str "BBBBBBBB")]) "dek" =
      some (Json.str "BBBBBBBB") ∧
    looksLikeB64 "BBBBBBBB" = true ∧
    "dek" ∈ wrapPreferred ∧ "a" ∉ wrapPreferred ∧
    "AAAAAAAA" ≠ "BBBBBBBB" := by
  refine ⟨?_, rfl, by decide, by decide, by decide, by decide⟩
  simp [pickBase64, prefPass, structObj, structArr, jsGet, jsonLookup,
    wrapPreferred, looksLikeB64, looksLikeB64J, jsTruthy, jsTypeofObject,
    jsStrVal, classThenEq, eqStar, isClassChar, canonIndex]
  decide

/-- C1 (amended): preferred names are tried in order, and when the
earliest preferred name whose loop step succeeds holds a qualifying
string directly, that string is returned (before the top-level
structural pass); however the recursion under an earlier preferred
name's object-typed value performs the full search — including the
structural fallback of that subtree — so an earlier name misses only
when `prefStepMiss` holds for it. -/
theorem c1_amended (l : List (String × Json)) (pre post : List String)
    (k v : String)
    (hg : jsGet (Json.obj l) k = some (Json.str v))
    (hv : looksLikeB64 v = true)
    (hmiss : ∀ k' ∈ pre, prefStepMiss (Json.obj l) k' (pre ++ k :: post) = true) :
    pickBase64 (Json.obj l) (pre ++ k :: post) true = some ⟨k, v, k⟩ :=
  pick_pref_hit l pre post k v hg hv hmiss

/-- C1 witness: `{ x: 5, dek: "CCCCCCCC" }` against the wrap preferred
names: the four names before `dek` all miss, and the value under `dek`
is returned. -/
theorem c1_witness :
    jsGet (Json.obj [("x", Json.num 5), ("dek", Json.str "CCCCCCCC")]) "dek" =
      some (Json.str "CCCCCCCC") ∧
    looksLikeB64 "CCCCCCCC" = true ∧
    (∀ k' ∈ ["key", "key_to_wrap_b64", "keyToWrapB64", "keyToWrap"],
      prefStepMiss (Json.obj [("x", Json.num 5), ("dek", Json.str "CCCCCCCC")])
        k' wrapPreferred = true) ∧
    pickBase64 (Json.obj [("x", Json.num 5), ("dek", Json.str "CCCCCCCC")])
      wrapPreferred true = some ⟨"dek", "CCCCCCCC", "dek"⟩ := by
  refine ⟨rfl, by decide, by decide, ?_⟩
  exact c1_amended [("x", Json.num 5), ("dek", Json.str "CCCCCCCC")]
    ["key", "key_to_wrap_b64", "keyToWrapB64", "keyToWrap"]
    ["plaintext_b64", "plaintext", "data"] "dek" "CCCCCCCC"
    rfl (by decide) (by decide)

/-! ### Claim C2 -/

/-- C2 counterexample: the body `["AAAAAAAA"]` contains a qualifying
base64 string as a direct array element and has no preferred-field
match, yet `pickBase64` returns nothing (the structural array pass only
recurses into elements and never tests a string element), so the first
qualifying string leaf in depth-first order is not returned. -/
theorem c2_counterexample :
    pickBase64 (Json.arr [Json.str "AAAAAAAA"]) wrapPreferred true = none ∧
    pickBase64 (Json.obj [("a", Json.arr [Json.str "AAAAAAAA"])])
      wrapPreferred true = none ∧
    looksLikeB64 "AAAAAAAA" = true := by
  refine ⟨?_, ?_, by decide⟩ <;>
    simp [pickBase64, prefPass, structObj, structArr, jsGet, jsonLookup,
      wrapPreferred, looksLikeB64, looksLikeB64J, jsTruthy, jsTypeofObject,
      jsStrVal, classThenEq, eqStar, isClassChar, canonIndex, digitVal,
      parseDigits]

/-- C2 (amended): when no preferred name is usable anywhere in the body,
`pickBase64` coincides with the pure depth-first structural search
`specDfs`: array elements are visited in index order but only recursed
into (a qualifying string that is a direct array element is skipped),
object entries are visited in insertion order and a string entry value
is returned as soon as it looks like base64. -/
theorem c2_amended (j : Json) (prefs : List String)
    (h : prefsUntouched j prefs = true) :
    pickBase64 j prefs true = specDfs j :=
  pick_eq_spec j prefs h

/-- C2 witness: a body with an array-buried string and a direct object
string, no wrap preferred name occurring anywhere. -/
theorem c2_witness :
    prefsUntouched
      (Json.obj [("b", Json.arr [Json.str "EEEEEEEE"]),
                 ("c", Json.str "FFFFFFFF")]) wrapPreferred = true ∧
    pickBase64
      (Json.obj [("b", Json.arr [Json.str "EEEEEEEE"]),
                 ("c", Json.str "FFFFFFFF")]) wrapPreferred true =
      specDfs (Json.obj [("b", Json.arr [Json.str "EEEEEEEE"]),
                 ("c", Json.str "FFFFFFFF")]) := by
  have h : prefsUntouched
      (Json.obj [("b", Json.arr [Json.str "EEEEEEEE"]),
                 ("c", Json.str "FFFFFFFF")]) wrapPreferred = true := by
    simp [prefsUntouched, puFields, puElems, jsGet, jsonLookup,
      wrapPreferred, canonIndex, digitVal]
  exact ⟨h, c2_amended _ _ h⟩

/-! ### Claim C10 -/

/-- C10: on any body that is not an object or array — a string, number,
boolean, `null`, or the `undefined` of an unparsed body — the locator
returns nothing for every preferred-name list, and in particular a
`POST /wrap` whose body is itself a qualifying base64 string gets the
missing-candidate 400 response rather than a wrap. -/
theorem c10_primitive_never_located :
    (∀ (prefs : List String) (recur : Bool),
      (∀ s, pickBase64 (Json.str s) prefs recur = none) ∧
      (∀ n, pickBase64 (Json.num n) prefs recur = none) ∧
      (∀ b, pickBase64 (Json.bool b) prefs recur = none) ∧
      pickBase64 Json.null prefs recur = none ∧
      pickOpt none prefs = none) ∧
    (∀ (s : String) (encrypt : Provider), looksLikeB64 s = true →
      wrapRun encrypt (some (Json.str s)) =
        (⟨400, Json.obj [("error", Json.str "missing DEK (base64)"),
          ("received_keys",
            Json.arr ((jsKeys (some (Json.str s))).map Json.str))]⟩, 0)) := by
  have hstr : ∀ (s : String) (prefs : List String) (recur : Bool),
      pickBase64 (Json.str s) prefs recur = none := by
    intro s prefs recur
    simp [pickBase64, jsTruthy, jsTypeofObject]
  refine ⟨fun prefs recur => ⟨fun s => hstr s prefs recur, ?_, ?_, ?_, rfl⟩,
    fun s encrypt _ => ?_⟩
  · intro n; simp [pickBase64, jsTruthy, jsTypeofObject]
  · intro b; simp [pickBase64, jsTruthy, jsTypeofObject]
  · simp [pickBase64, jsTruthy]
  · simp only [wrapRun, pickOpt, hstr s wrapPreferred true, reasonVal,
      jsGet]

/-- C10 witness at the qualifying string body `"AAAAAAAA"`. -/
theorem c10_witness :
    looksLikeB64 "AAAAAAAA" = true ∧
    wrapRun (fun _ => Except.ok []) (some (Json.str "AAAAAAAA")) =
      (⟨400, Json.obj [("error", Json.str "missing DEK (base64)"),
        ("received_keys",
          Json.arr ((jsKeys (some (Json.str "AAAAAAAA"))).map Json.str))]⟩, 0) :=
  ⟨by decide,
    c10_primitive_never_located.2 "AAAAAAAA" (fun _ => Except.ok []) (by decide)⟩

/-! ### Claim C3 -/

/-- C3: when the locator finds no candidate in a `POST /wrap` body, the
handler answers 200 with the benign no-op envelope if the body carries a
top-level string `reason`, and otherwise 400 with the missing-DEK error
and the body's top-level field names (empty for an empty body), without
calling the provider. -/
theorem c3_no_candidate (encrypt : Provider) (b : ReqBody)
    (h : pickOpt b wrapPreferred = none) :
    (∀ r, reasonVal b = some r →
      wrapRun encrypt b = (⟨200, Json.obj [("ok", Json.bool true),
        ("note", Json.str "noop (error envelope)"),
        ("reason", Json.str r)]⟩, 0)) ∧
    (reasonVal b = none →
      wrapRun encrypt b = (⟨400,
        Json.obj [("error", Json.str "missing DEK (base64)"),
          ("received_keys", Json.arr ((jsKeys b).map Json.str))]⟩, 0)) := by
  constructor
  · intro r hr
    simp [wrapRun, h, hr]
  · intro hr
    simp [wrapRun, h, hr]

/-- C3 witness: the empty object gets the 400 with `received_keys: []`,
and `{ reason: "client error" }` gets the 200 no-op. -/
theorem c3_witness :
    pickOpt (some (Json.obj [])) wrapPreferred = none ∧
    reasonVal (some (Json.obj [])) = none ∧
    wrapRun (fun _ => Except.ok []) (some (Json.obj [])) =
      (⟨400, Json.obj [("error", Json.str "missing DEK (base64)"),
        ("received_keys",
          Json.arr ((jsKeys (some (Json.obj []))).map Json.str))]⟩, 0) ∧
    pickOpt (some (Json.obj [("reason", Json.str "client error")]))
      wrapPreferred = none ∧
    reasonVal (some (Json.obj [("reason", Json.str "client error")])) =
      some "client error" ∧
    wrapRun (fun _ => Except.ok [])
      (some (Json.obj [("reason", Json.str "client error")])) =
      (⟨200, Json.obj [("ok", Json.bool true),
        ("note", Json.str "noop (error envelope)"),
        ("reason", Json.str "client error")]⟩, 0) := by
  have h1 : pickOpt (some (Json.obj [])) wrapPreferred = none := by
    simp [pickOpt, pickBase64, prefPass, structObj, jsGet, jsonLookup,
      wrapPreferred, jsTruthy, jsTypeofObject]
  have h2 : pickOpt (some (Json.obj [("reason", Json.str "client error")]))
      wrapPreferred = none := by
    simp [pickOpt, pickBase64, prefPass, structObj, jsGet, jsonLookup,
      wrapPreferred, jsTruthy, jsTypeofObject, looksLikeB64J, looksLikeB64,
      classThenEq, eqStar, isClassChar, jsStrVal]
  exact ⟨h1, rfl, (c3_no_candidate _ _ h1).2 rfl, h2, rfl,
    (c3_no_candidate _ _ h2).1 "client error" rfl⟩

/-! ### Claim C4 -/

/-- C4: assuming the provider is deterministic and inverse on this pair
(encrypt maps the bytes to a ciphertext of at least four bytes, decrypt
maps it back), wrapping `{ key: base64(b) }` (with the base64 at least 8
characters) answers 200 with only `wrapped_key`, and unwrapping that
`wrapped_key` answers 200 with `key: base64(b)` — the round trip
reproduces the original base64 plaintext. -/
theorem c4_roundtrip (encrypt decrypt : Provider) (bs ct : List Nat)
    (hbs : ∀ x ∈ bs, x < 256) (hlen : 8 ≤ (b64encode bs).length)
    (henc : encrypt bs = Except.ok ct)
    (hct : ∀ x ∈ ct, x < 256) (hctlen : 8 ≤ (b64encode ct).length)
    (hdec : decrypt ct = Except.ok bs) :
    wrapRun encrypt (some (Json.obj [("key", Json.str (b64encode bs))])) =
      (⟨200, Json.obj [("wrapped_key", Json.str (b64encode ct))]⟩, 1) ∧
    unwrapRun decrypt
      (some (Json.obj [("wrapped_key", Json.str (b64encode ct))])) =
      (⟨200, Json.obj [("key", Json.str (b64encode bs))]⟩, 1) := by
  have hlooks := looks_enc bs hlen hbs
  have hlooksc := looks_enc ct hctlen hct
  have hpick : pickOpt (some (Json.obj [("key", Json.str (b64encode bs))]))
      wrapPreferred = some ⟨"key", b64encode bs, "key"⟩ := by
    have := pick_pref_hit [("key", Json.str (b64encode bs))] []
      ["key_to_wrap_b64", "keyToWrapB64", "keyToWrap", "dek",
       "plaintext_b64", "plaintext", "data"]
      "key" (b64encode bs) (by simp [jsGet, jsonLookup]) hlooks (by simp)
    simpa [pickOpt, wrapPreferred] using this
  have hpickc : pickOpt
      (some (Json.obj [("wrapped_key", Json.str (b64encode ct))]))
      unwrapPreferred = some ⟨"wrapped_key", b64encode ct, "wrapped_key"⟩ := by
    have := pick_pref_hit [("wrapped_key", Json.str (b64encode ct))] []
      ["wrapped_key_b64", "wrappedKeyB64", "wrappedDek",
       "ciphertext_b64", "ciphertext", "data"]
      "wrapped_key" (b64encode ct) (by simp [jsGet, jsonLookup]) hlooksc (by simp)
    simpa [pickOpt, unwrapPreferred] using this
  have hbuf := b64url_enc bs hbs
  have hbufc := b64url_enc ct hct
  constructor
  · simp [wrapRun, hpick, hbuf, henc]
  · simp [unwrapRun, hpickc, hbufc, hdec]

/-- C4 witness: the spec scenario bytes `"Hello"` (base64 `SGVsbG8=`)
through a concrete inverse provider pair. -/
theorem c4_witness :
    (∀ x ∈ [72, 101, 108, 108, 111], x < 256) ∧
    8 ≤ (b64encode [72, 101, 108, 108, 111]).length ∧
    (fun _ => (Except.ok [1, 2, 3, 4] : Except String (List Nat)))
      [72, 101, 108, 108, 111] = Except.ok [1, 2, 3, 4] ∧
    (∀ x ∈ [1, 2, 3, 4], x < 256) ∧
    8 ≤ (b64encode [1, 2, 3, 4]).length ∧
    (fun _ => (Except.ok [72, 101, 108, 108, 111] : Except String (List Nat)))
      [1, 2, 3, 4] = Except.ok [72, 101, 108, 108, 111] ∧
    wrapRun (fun _ => Except.ok [1, 2, 3, 4])
      (some (Json.obj [("key", Json.str (b64encode [72, 101, 108, 108, 111]))])) =
      (⟨200, Json.obj [("wrapped_key", Json.str (b64encode [1, 2, 3, 4]))]⟩, 1) ∧
    unwrapRun (fun _ => Except.ok [72, 101, 108, 108, 111])
      (some (Json.obj [("wrapped_key", Json.str (b64encode [1, 2, 3, 4]))])) =
      (⟨200, Json.obj [("key", Json.str (b64encode [72, 101, 108, 108, 111]))]⟩, 1) := by
  have h := c4_roundtrip (fun _ => Except.ok [1, 2, 3, 4])
    (fun _ => Except.ok [72, 101, 108, 108, 111])
    [72, 101, 108, 108, 111] [1, 2, 3, 4]
    (by decide) (by decide) rfl (by decide) (by decide) rfl
  exact ⟨by decide, by decide, rfl, by decide, by decide, rfl, h.1, h.2⟩

/-! ### Claim C5 -/

/-- C5 counterexample: the configured key resource is returned verbatim
in the `GET /status` response body, under the field `key_resource` — it
is not absent from every response body. -/
theorem c5_counterexample :
    (service (fun _ => Except.error "") (fun _ => Except.error "")
      "projects/demo/locations/global/keyRings/kr/cryptoKeys/ck"
      ⟨"GET", "/status", none, none, BodyIn.noJson⟩).body =
      some (statusBody "projects/demo/locations/global/keyRings/kr/cryptoKeys/ck") ∧
    jsGet (statusBody "projects/demo/locations/global/keyRings/kr/cryptoKeys/ck")
      "key_resource" =
      some (Json.str "projects/demo/locations/global/keyRings/kr/cryptoKeys/ck") :=
  ⟨rfl, rfl⟩

/-- C5 (amended): the key resource does appear in a response body —
`GET /status` always answers 200 with the fixed descriptor whose
`key_resource` field holds exactly the configured identifier. -/
theorem c5_amended (e d : Provider) (kr : String) (o a : Option String) :
    service e d kr ⟨"GET", "/status", o, a, BodyIn.noJson⟩ =
      ⟨200, corsHeaders ⟨"GET", "/status", o, a, BodyIn.noJson⟩,
        some (statusBody kr)⟩ ∧
    jsGet (statusBody kr) "key_resource" = some (Json.str kr) := by
  constructor
  · simp [service]
  · simp [jsGet, statusBody, jsonLookup]

/-! ### Claim C6 -/

/-- C6 counterexample: a malformed JSON body on `POST /wrap` is answered
by the framework's parse-error 400 page, not by the handler's
missing-DEK response — the parse fault does reach the client as a
framework-generated error response. -/
theorem c6_counterexample :
    service (fun _ => Except.ok []) (fun _ => Except.ok []) "kr"
      ⟨"POST", "/wrap", none, none, BodyIn.malformed⟩ =
      ⟨400, corsHeaders ⟨"POST", "/wrap", none, none, BodyIn.malformed⟩,
        some parseFailBody⟩ ∧
    parseFailBody ≠ Json.obj [("error", Json.str "missing DEK (base64)"),
      ("received_keys", Json.arr [])] := by
  constructor
  · rfl
  · simp [parseFailBody]

/-- C6 (amended): a body the JSON middleware leaves unparsed (absent or
non-JSON content type) is handled as empty — the wrap handler runs and
reports the missing-field 400 with `received_keys: []` — but a JSON body
that fails to parse is rejected by the body parser and surfaces as the
framework's own 400 parse-error response, bypassing the handler. -/
theorem c6_amended (e d : Provider) (kr : String) (o a : Option String) :
    service e d kr ⟨"POST", "/wrap", o, a, BodyIn.noJson⟩ =
      ⟨400, corsHeaders ⟨"POST", "/wrap", o, a, BodyIn.noJson⟩,
        some (Json.obj [("error", Json.str "missing DEK (base64)"),
          ("received_keys", Json.arr [])])⟩ ∧
    service e d kr ⟨"POST", "/wrap", o, a, BodyIn.malformed⟩ =
      ⟨400, corsHeaders ⟨"POST", "/wrap", o, a, BodyIn.malformed⟩,
        some parseFailBody⟩ := by
  constructor
  · simp [service, wrapRun, pickOpt, reasonVal, jsKeys, bodyOf]
  · simp [service]

/-! ### Claim C7 -/

/-- C7: when the provider call of `/wrap` (resp. `/unwrap`) throws, the
handler answers 500 with `wrap_failed` (resp. `unwrap_failed`) plus the
failure's detail string, and the provider was invoked exactly once. -/
theorem c7_provider_failure (encrypt decrypt : Provider) (b bu : ReqBody)
    (got gotu : Found) (pt ctu : List Nat) (e eu : String) :
    (pickOpt b wrapPreferred = some got →
      b64urlToBuf (Json.str got.b64) = some pt →
      encrypt pt = Except.error e →
      wrapRun encrypt b = (⟨500, Json.obj [("error", Json.str "wrap_failed"),
        ("detail", Json.str e)]⟩, 1)) ∧
    (pickOpt bu unwrapPreferred = some gotu →
      b64urlToBuf (Json.str gotu.b64) = some ctu →
      decrypt ctu = Except.error eu →
      unwrapRun decrypt bu = (⟨500,
        Json.obj [("error", Json.str "unwrap_failed"),
          ("detail", Json.str eu)]⟩, 1)) := by
  constructor
  · intro h1 h2 h3
    simp [wrapRun, h1, h2, h3]
  · intro h1 h2 h3
    simp [unwrapRun, h1, h2, h3]

/-- C7 witness: a provider that throws `boom` on the wrap of
`{ key: "AAAAAAAA" }` and the unwrap of `{ wrapped_key: "AAAAAAAA" }`. -/
theorem c7_witness :
    pickOpt (some (Json.obj [("key", Json.str "AAAAAAAA")])) wrapPreferred =
      some ⟨"key", "AAAAAAAA", "key"⟩ ∧
    b64urlToBuf (Json.str "AAAAAAAA") = some [0, 0, 0, 0, 0, 0] ∧
    (fun _ => (Except.error "boom" : Except String (List Nat)))
      [0, 0, 0, 0, 0, 0] = Except.error "boom" ∧
    wrapRun (fun _ => Except.error "boom")
      (some (Json.obj [("key", Json.str "AAAAAAAA")])) =
      (⟨500, Json.obj [("error", Json.str "wrap_failed"),
        ("detail", Json.str "boom")]⟩, 1) ∧
    pickOpt (some (Json.obj [("wrapped_key", Json.str "AAAAAAAA")]))
      unwrapPreferred = some ⟨"wrapped_key", "AAAAAAAA", "wrapped_key"⟩ ∧
    unwrapRun (fun _ => Except.error "boom")
      (some (Json.obj [("wrapped_key", Json.str "AAAAAAAA")])) =
      (⟨500, Json.obj [("error", Json.str "unwrap_failed"),
        ("detail", Json.str "boom")]⟩, 1) := by
  have h1 : pickOpt (some (Json.obj [("key", Json.str "AAAAAAAA")]))
      wrapPreferred = some ⟨"key", "AAAAAAAA", "key"⟩ := by
    simp [pickOpt, pickBase64, prefPass, jsGet, jsonLookup, wrapPreferred,
      jsTruthy, jsTypeofObject, looksLikeB64, classThenEq, eqStar, isClassChar]
    decide
  have h2 : pickOpt (some (Json.obj [("wrapped_key", Json.str "AAAAAAAA")]))
      unwrapPreferred = some ⟨"wrapped_key", "AAAAAAAA", "wrapped_key"⟩ := by
    simp [pickOpt, pickBase64, prefPass, jsGet, jsonLookup, unwrapPreferred,
      jsTruthy, jsTypeofObject, looksLikeB64, classThenEq, eqStar, isClassChar]
    decide
  have hc := c7_provider_failure (fun _ => Except.error "boom")
    (fun _ => Except.error "boom")
    (some (Json.obj [("key", Json.str "AAAAAAAA")]))
    (some (Json.obj [("wrapped_key", Json.str "AAAAAAAA")]))
    ⟨"key", "AAAAAAAA", "key"⟩ ⟨"wrapped_key", "AAAAAAAA", "wrapped_key"⟩
    [0, 0, 0, 0, 0, 0] [0, 0, 0, 0, 0, 0] "boom" "boom"
  exact ⟨h1, rfl, rfl, hc.1 h1 rfl rfl, h2, hc.2 h2 rfl rfl⟩

/-! ### Claim C8 -/

/-- C8: every `OPTIONS` or `HEAD` request, on any path, is answered
immediately with 204 and an empty body carrying the CORS headers: the
allow-origin echoes a present (non-empty) `Origin` header and falls back
to the fixed client origin otherwise, `Vary: Origin` is set, and the
max-age is 86400. -/
theorem c8_preflight (e d : Provider) (kr : String) (req : Request)
    (h : req.method = "OPTIONS" ∨ req.method = "HEAD") :
    service e d kr req = ⟨204, corsHeaders req, none⟩ ∧
    (∀ s, req.origin = some s → s ≠ "" →
      headerVal (corsHeaders req) "Access-Control-Allow-Origin" = some s) ∧
    (req.origin = none →
      headerVal (corsHeaders req) "Access-Control-Allow-Origin" =
        some "https://client-side-encryption.google.com") ∧
    headerVal (corsHeaders req) "Vary" = some "Origin" ∧
    headerVal (corsHeaders req) "Access-Control-Max-Age" = some "86400" := by
  refine ⟨?_, ?_, ?_, ?_, ?_⟩
  · simp only [service]
    rw [if_pos h]
  · intro s hs hne
    simp [corsHeaders, headerVal, jsOr, hs, hne]
  · intro hs
    simp [corsHeaders, headerVal, jsOr, hs]
  · simp [corsHeaders, headerVal]
  · simp [corsHeaders, headerVal]

/-- C8 witness: `OPTIONS /wrap` with `Origin: https://example.com`. -/
theorem c8_witness :
    ("OPTIONS" = "OPTIONS" ∨ "OPTIONS" = "HEAD") ∧
    service (fun _ => Except.ok []) (fun _ => Except.ok []) "kr"
      ⟨"OPTIONS", "/wrap", some "https://example.com", none, BodyIn.noJson⟩ =
      ⟨204, corsHeaders ⟨"OPTIONS", "/wrap", some "https://example.com", none,
        BodyIn.noJson⟩, none⟩ ∧
    headerVal (corsHeaders ⟨"OPTIONS", "/wrap", some "https://example.com",
      none, BodyIn.noJson⟩) "Access-Control-Allow-Origin" =
      some "https://example.com" := by
  have h := c8_preflight (fun _ => Except.ok []) (fun _ => Except.ok []) "kr"
    ⟨"OPTIONS", "/wrap", some "https://example.com", none, BodyIn.noJson⟩
    (Or.inl rfl)
  exact ⟨Or.inl rfl, h.1, h.2.1 "https://example.com" rfl (by decide)⟩

/-! ### Claim C9 -/

/-- C9: `b64urlToBuf` is non-null on every string satisfying
`looksLikeB64` (the decoder is total on strings), and consequently the
400 responses `invalid base64/plaintext` and `invalid base64/ciphertext`
are unreachable: no wrap or unwrap outcome ever carries those bodies,
whatever candidate the locator produced. -/
theorem c9_decoder_total :
    (∀ s, looksLikeB64 s = true → (b64urlToBuf (Json.str s)).isSome = true) ∧
    (∀ (encrypt : Provider) (b : ReqBody),
      (wrapRun encrypt b).1.body ≠
        Json.obj [("error", Json.str "invalid base64/plaintext")]) ∧
    (∀ (decrypt : Provider) (b : ReqBody),
      (unwrapRun decrypt b).1.body ≠
        Json.obj [("error", Json.str "invalid base64/ciphertext")]) := by
  refine ⟨fun s _ => rfl, fun encrypt b => ?_, fun decrypt b => ?_⟩
  · cases hp : pickOpt b wrapPreferred with
    | none =>
      cases hr : reasonVal b with
      | some r => simp [wrapRun, hp, hr]
      | none => simp [wrapRun, hp, hr]
    | some got =>
      cases he : encrypt (nodeB64Decode (padEq (jsReplaceUrl (jsTrim got.b64)))) with
      | error e => simp [wrapRun, hp, b64urlToBuf, he]
      | ok ct => simp [wrapRun, hp, b64urlToBuf, he]
  · cases hp : pickOpt b unwrapPreferred with
    | none => simp [unwrapRun, hp]
    | some got =>
      cases he : decrypt (nodeB64Decode (padEq (jsReplaceUrl (jsTrim got.b64)))) with
      | error e => simp [unwrapRun, hp, b64urlToBuf, he]
      | ok pt => simp [unwrapRun, hp, b64urlToBuf, he]

/-- C9 witness: the decoder succeeds on the qualifying string
`SGVsbG8=`. -/
theorem c9_witness :
    looksLikeB64 "SGVsbG8=" = true ∧
    (b64urlToBuf (Json.str "SGVsbG8=")).isSome = true :=
  ⟨by decide, c9_decoder_total.1 "SGVsbG8=" (by decide)⟩

end Kacls
